import Mathlib

/-!
Verification of the echo endpoint-registry and request-dispatch subsystem.

The development shallowly embeds the Go sources:
  - `store/store.go`: the registry (`Store.CreateEndpoint`, `Store.FetchEndpoints`,
    `Store.DeleteEndpoint`, `Store.FindEndpoint`, `Store.UpdateEndpoint`) over an
    in-memory table of rows, with the `headers` column stored as a serialized
    JSON text blob;
  - `server`: the HTTP handlers (`fetchEndpoints`, `createEndpoint`,
    `updateEndpoint`, `deleteEndpoint`, `all`), the `serve` replay helper,
    `replyWithErr`, `unmarshalAndVerify`, and the `ServeMux` routing.

Machine integers are modelled as `Int`/`Nat`; fallible operations return
`Except`/`Option`; the SQLite table is a list of rows in rowid order.
-/

namespace Echo

/-! ### JSON text blob for the `headers` column

`store.go` persists `Response.Headers` (a Go `map[string]string`) with
`json.Marshal` and reads it back with `json.Unmarshal`.  The map is modelled
as its canonical enumeration, a `List (String × String)` (Go's `json.Marshal`
emits map keys in sorted order; the list is that enumeration).  The encoder
escapes the two structurally significant characters, `"` and `\`; the decoder
is a strict recursive-descent parser over the characters of the blob. -/

def escapeChars : List Char → List Char
  | [] => []
  | c :: cs =>
    if c = '\"' ∨ c = '\\' then '\\' :: c :: escapeChars cs
    else c :: escapeChars cs

/-- Parses the remainder of a JSON string (the opening quote already
consumed): returns the unescaped content and the input after the closing
quote.  The flag records whether the previous character was an unconsumed
backslash. -/
def parseJStringAux : Bool → List Char → Option (List Char × List Char)
  | _, [] => none
  | true, c :: rest =>
    match parseJStringAux false rest with
    | none => none
    | some (s, r) => some (c :: s, r)
  | false, c :: rest =>
    if c = '\"' then some ([], rest)
    else if c = '\\' then parseJStringAux true rest
    else
      match parseJStringAux false rest with
      | none => none
      | some (s, r) => some (c :: s, r)

def parseJString (cs : List Char) : Option (List Char × List Char) :=
  parseJStringAux false cs

def expectChar (c : Char) : List Char → Option (List Char)
  | [] => none
  | d :: rest => if d = c then some rest else none

/-- Encodes one `"key":"value"` pair, continuation-passing: `rest` is the
already-encoded remainder of the blob. -/
def encodeEntry (k v rest : List Char) : List Char :=
  '\"' :: (escapeChars k ++ '\"' :: ':' :: '\"' :: (escapeChars v ++ '\"' :: rest))

/-- Encodes `("," entry)* "}"`, the blob after the first entry. -/
def encodeTail : List (List Char × List Char) → List Char
  | [] => ['\x7d']
  | e :: es => ',' :: encodeEntry e.1 e.2 (encodeTail es)

def marshalChars : List (List Char × List Char) → List Char
  | [] => ['\x7b', '\x7d']
  | e :: es => '\x7b' :: encodeEntry e.1 e.2 (encodeTail es)

def parseEntry (cs : List Char) : Option ((List Char × List Char) × List Char) :=
  match expectChar '\"' cs with
  | none => none
  | some r1 =>
    match parseJString r1 with
    | none => none
    | some (k, r2) =>
      match expectChar ':' r2 with
      | none => none
      | some r3 =>
        match expectChar '\"' r3 with
        | none => none
        | some r4 =>
          match parseJString r4 with
          | none => none
          | some (v, r5) => some ((k, v), r5)

/-- Parses `("," entry)* "}"`; fuelled to make termination structural. -/
def parseRest (fuel : Nat) (cs : List Char) :
    Option (List (List Char × List Char) × List Char) :=
  match fuel with
  | 0 => none
  | fuel' + 1 =>
    match cs with
    | [] => none
    | c :: rest =>
      if c = '\x7d' then some ([], rest)
      else if c = ',' then
        match parseEntry rest with
        | none => none
        | some (e, r2) =>
          match parseRest fuel' r2 with
          | none => none
          | some (es, r3) => some (e :: es, r3)
      else none

def unmarshalChars (cs : List Char) : Option (List (List Char × List Char)) :=
  match expectChar '\x7b' cs with
  | none => none
  | some r1 =>
    match r1 with
    | [] => none
    | c :: r2 =>
      if c = '\x7d' then (if r2 = [] then some [] else none)
      else
        match parseEntry r1 with
        | none => none
        | some (e, r3) =>
          match parseRest (r3.length + 1) r3 with
          | none => none
          | some (es, r4) => if r4 = [] then some (e :: es) else none

def marshalHeaders (h : List (String × String)) : String :=
  ⟨marshalChars (h.map (fun kv => (kv.1.data, kv.2.data)))⟩

def unmarshalHeaders (s : String) : Option (List (String × String)) :=
  (unmarshalChars s.data).map (List.map (fun kv => (⟨kv.1⟩, ⟨kv.2⟩)))

/-! #### Round-trip lemmas -/

theorem parseJString_escape (s : List Char) :
    ∀ rest, parseJString (escapeChars s ++ '\"' :: rest) = some (s, rest) := by
  induction s with
  | nil => intro rest; rfl
  | cons c cs ih =>
    intro rest
    unfold parseJString at *
    by_cases hc : c = '\"' ∨ c = '\\'
    · simp only [escapeChars, if_pos hc, List.cons_append]
      have h1 : ('\\' : Char) ≠ '\"' := by decide
      simp [parseJStringAux, h1, ih rest]
    · push_neg at hc
      simp only [escapeChars, if_neg (by tauto : ¬(c = '\"' ∨ c = '\\')), List.cons_append]
      simp [parseJStringAux, hc.1, hc.2, ih rest]

theorem parseEntry_encodeEntry (k v rest : List Char) :
    parseEntry (encodeEntry k v rest) = some ((k, v), rest) := by
  simp [parseEntry, encodeEntry, expectChar, parseJString_escape]

theorem encodeEntry_length (k v rest : List Char) :
    rest.length < (encodeEntry k v rest).length := by
  simp [encodeEntry]
  omega

theorem encodeTail_length (es : List (List Char × List Char)) :
    es.length < (encodeTail es).length := by
  induction es with
  | nil => simp [encodeTail]
  | cons e es ih =>
    have := encodeEntry_length e.1 e.2 (encodeTail es)
    simp [encodeTail]
    omega

theorem parseRest_encodeTail (es : List (List Char × List Char)) :
    ∀ fuel, es.length < fuel → parseRest fuel (encodeTail es) = some (es, []) := by
  induction es with
  | nil =>
    intro fuel hf
    obtain ⟨f, rfl⟩ : ∃ f, fuel = f + 1 := ⟨fuel - 1, by omega⟩
    simp [encodeTail, parseRest]
  | cons e es ih =>
    intro fuel hf
    obtain ⟨f, rfl⟩ : ∃ f, fuel = f + 1 := ⟨fuel - 1, by omega⟩
    have hcomma : (',' : Char) ≠ '\x7d' := by decide
    simp only [encodeTail, parseRest, if_neg hcomma, if_pos rfl]
    simp [parseEntry_encodeEntry, ih f (by simpa using hf)]

theorem unmarshalChars_marshalChars (l : List (List Char × List Char)) :
    unmarshalChars (marshalChars l) = some l := by
  cases l with
  | nil => rfl
  | cons e es =>
    have hne : ('\"' : Char) ≠ '\x7d' := by decide
    have hpe : parseEntry ('\"' :: (escapeChars e.1 ++ '\"' :: ':' :: '\"' ::
        (escapeChars e.2 ++ '\"' :: encodeTail es))) = some ((e.1, e.2), encodeTail es) :=
      parseEntry_encodeEntry e.1 e.2 (encodeTail es)
    have hpr : parseRest ((encodeTail es).length + 1) (encodeTail es) = some (es, []) :=
      parseRest_encodeTail es _ (Nat.lt_succ_of_lt (encodeTail_length es))
    simp [unmarshalChars, marshalChars, expectChar, encodeEntry, hne, hpe, hpr]

theorem unmarshalHeaders_marshalHeaders (h : List (String × String)) :
    unmarshalHeaders (marshalHeaders h) = some h := by
  unfold unmarshalHeaders marshalHeaders
  rw [show (⟨marshalChars (h.map (fun kv => (kv.1.data, kv.2.data)))⟩ : String).data =
      marshalChars (h.map (fun kv => (kv.1.data, kv.2.data))) from rfl]
  rw [unmarshalChars_marshalChars]
  show some _ = some h
  congr 1
  rw [List.map_map]
  have hcomp : ((fun (kv : List Char × List Char) => ((⟨kv.1⟩ : String), (⟨kv.2⟩ : String))) ∘
      (fun (kv : String × String) => (kv.1.data, kv.2.data))) = id := by
    funext kv; rfl
  rw [hcomp, List.map_id]

/-! ### Data model (`store/store.go`)

`Endpoint`, `Attributes`, `Response`, and the `One`/`Many` JSON:API envelopes
mirror the Go structs.  `Response.code` is a Go `int`, modelled as `Int`;
`Response.headers` is the canonical enumeration of the Go
`map[string]string`. -/

structure Response where
  code : Int
  headers : List (String × String)
  body : String
deriving DecidableEq, Repr

structure Attributes where
  verb : String
  path : String
  response : Response
deriving DecidableEq, Repr

structure Endpoint where
  type : String
  id : Nat
  attributes : Attributes
deriving DecidableEq, Repr

structure One where
  data : Endpoint
deriving DecidableEq, Repr

structure Many where
  data : List Endpoint
deriving DecidableEq, Repr

/-- Verbs accepted by the `oneof` validator tag on `Attributes.Verb`. -/
def validVerb (v : String) : Bool :=
  (["GET", "HEAD", "OPTIONS", "TRACE", "PUT", "DELETE", "POST", "PATCH", "CONNECT"]).contains v

/-- Whether `pre` is a leading segment of `s` (Go `strings.HasPrefix`). -/
def hasPre (pre s : List Char) : Bool :=
  match pre, s with
  | [], _ => true
  | _ :: _, [] => false
  | p :: ps, c :: cs => p == c && hasPre ps cs

/-- Whether the scheme separator `://` occurs in the characters. -/
def hasSchemeSep : List Char → Bool
  | ':' :: '/' :: '/' :: _ => true
  | _ :: rest => hasSchemeSep rest
  | [] => false

/-- Model of the `uri` validator tag (the go-playground validator delegates to
`url.ParseRequestURI`, which accepts an absolute URI or an absolute path).
The precise library grammar is abstracted; the same predicate is used on both
the code side and the spec side of the validation claims. -/
def isURI (s : String) : Bool :=
  hasPre (("/").data) s.data || hasSchemeSep s.data

/-- Model of `Endpoint.Verify` / `validator.Struct` over the struct tags:
`Type`: `required,oneof=endpoints`; `Verb`: `required,oneof=<nine verbs>`;
`Path`: `required,uri`; `Response.Code`: `required,gte=100,lte=599`
(`required` on an `int` means nonzero). -/
def Endpoint.Verify (e : Endpoint) : Bool :=
  (e.type == "endpoints")
    && validVerb e.attributes.verb
    && ((e.attributes.path != "") && isURI e.attributes.path)
    && ((e.attributes.response.code != 0)
        && (100 ≤ e.attributes.response.code) && (e.attributes.response.code ≤ 599))

/-! ### The registry (`Store`)

The SQLite `endpoints` table is a list of rows in rowid order; `nextId` is the
`AUTOINCREMENT` counter.  Storage errors are Go `error` values: the sentinel
`sql.ErrNoRows` or some other error carrying a message. -/

structure Row where
  id : Nat
  type : String
  verb : String
  path : String
  code : Int
  headers : String
  body : String
deriving DecidableEq, Repr

structure Store where
  rows : List Row
  nextId : Nat
deriving DecidableEq, Repr

inductive StoreErr where
  | errNoRows
  | other (msg : String)
deriving DecidableEq, Repr

/-- Decoding a scanned row back into an `Endpoint`, as the fetch loop does:
`json.Unmarshal` of the headers blob, aborting with an error on failure. -/
def rowScan (r : Row) : Except StoreErr Endpoint :=
  match unmarshalHeaders r.headers with
  | none => Except.error (StoreErr.other (("unmarshal headers: ") ++ r.headers))
  | some hs =>
    Except.ok
      { type := r.type, id := r.id,
        attributes :=
          { verb := r.verb, path := r.path,
            response := { code := r.code, headers := hs, body := r.body } } }

/-- Total variant of `rowScan` used to state what fetching returns on
well-formed stores (the default is never reached there). -/
def rowEndpoint (r : Row) : Endpoint :=
  { type := r.type, id := r.id,
    attributes :=
      { verb := r.verb, path := r.path,
        response :=
          { code := r.code, headers := (unmarshalHeaders r.headers).getD [],
            body := r.body } } }

/-- The `for rows.Next() { ... rows.Scan ... json.Unmarshal ... }` loop of
`Store.FetchEndpoints`: scans rows in order, aborting on the first failure. -/
def scanRows : List Row → Except StoreErr (List Endpoint)
  | [] => Except.ok []
  | r :: rs =>
    match rowScan r with
    | Except.error e => Except.error e
    | Except.ok e =>
      match scanRows rs with
      | Except.error err => Except.error err
      | Except.ok es => Except.ok (e :: es)

/-- `SELECT * FROM endpoints ORDER by id`, then the scan loop. -/
def Store.FetchEndpoints (s : Store) : Except StoreErr Many :=
  match scanRows (s.rows.insertionSort (fun a b => a.id ≤ b.id)) with
  | Except.error e => Except.error e
  | Except.ok es => Except.ok { data := es }

/-- `INSERT INTO endpoints ... RETURNING ...`: marshals the headers map into
the text blob, appends the row with the next id, and scans the returned row
(unmarshalling the blob again). -/
def Store.CreateEndpoint (s : Store) (e : Endpoint) : Except StoreErr One × Store :=
  let h := marshalHeaders e.attributes.response.headers
  let row : Row :=
    { id := s.nextId, type := e.type, verb := e.attributes.verb,
      path := e.attributes.path, code := e.attributes.response.code,
      headers := h, body := e.attributes.response.body }
  let s' : Store := { rows := s.rows ++ [row], nextId := s.nextId + 1 }
  match rowScan row with
  | Except.error err => (Except.error err, s')
  | Except.ok e' => (Except.ok { data := e' }, s')

/-- Digit-string reading used to model SQLite's INTEGER affinity on the
textual `id` parameter (numeric text converts, other text matches no integer
row id). -/
def toNatAux : List Char → Nat → Option Nat
  | [], acc => some acc
  | c :: cs, acc =>
    if c.isDigit then toNatAux cs (acc * 10 + (c.toNat - 48)) else none

def strToNat? (s : String) : Option Nat :=
  match s.data with
  | [] => none
  | l => toNatAux l 0

/-- `DELETE FROM endpoints WHERE id = ?`; the string id is compared to the
INTEGER column under SQLite type affinity (numeric text converts, other text
matches nothing).  Returns whether any row was affected. -/
def Store.DeleteEndpoint (s : Store) (id : String) : Except StoreErr Bool × Store :=
  match strToNat? id with
  | none => (Except.ok false, s)
  | some n =>
    let hit := s.rows.any (fun r => r.id == n)
    (Except.ok hit, { s with rows := s.rows.filter (fun r => r.id != n) })

/-- `SELECT code, headers, body FROM endpoints WHERE verb = ? AND path = ?`
via `QueryRow`: the first matching row in rowid order, `sql.ErrNoRows`
translated to a nil result, and the headers blob unmarshalled. -/
def Store.FindEndpoint (s : Store) (verb path : String) :
    Except StoreErr (Option Response) :=
  match s.rows.find? (fun r => r.verb == verb && r.path == path) with
  | none => Except.ok none
  | some r =>
    match unmarshalHeaders r.headers with
    | none => Except.error (StoreErr.other (("unmarshal headers: ") ++ r.headers))
    | some hs => Except.ok (some { code := r.code, headers := hs, body := r.body })

/-- `UPDATE endpoints SET ... WHERE id = ? RETURNING ...` via `QueryRow`:
when no row has the id, `row.Scan` yields `sql.ErrNoRows`, which
`UpdateEndpoint` returns as an error; otherwise the row is replaced in place
(keeping its id) and the returned row is scanned.  The Go signature is
`(*One, error)`, so the success value is an `Option One`. -/
def Store.UpdateEndpoint (s : Store) (id : String) (e : Endpoint) :
    Except StoreErr (Option One) × Store :=
  let h := marshalHeaders e.attributes.response.headers
  match strToNat? id with
  | none => (Except.error StoreErr.errNoRows, s)
  | some n =>
    if s.rows.any (fun r => r.id == n) then
      let row : Row :=
        { id := n, type := e.type, verb := e.attributes.verb,
          path := e.attributes.path, code := e.attributes.response.code,
          headers := h, body := e.attributes.response.body }
      let s' : Store :=
        { s with rows := s.rows.map (fun r => if r.id == n then row else r) }
      match rowScan row with
      | Except.error err => (Except.error err, s')
      | Except.ok e' => (Except.ok (some { data := e' }), s')
    else (Except.error StoreErr.errNoRows, s)

/-- Well-formedness of a registry state: rows are in strictly ascending id
order (rowid order with `AUTOINCREMENT`), ids stay below the counter, and
every stored headers blob deserializes (every blob written by the store is
`marshalHeaders` output). -/
def Store.WF (s : Store) : Prop :=
  s.rows.Pairwise (fun a b => a.id < b.id)
    ∧ (∀ r ∈ s.rows, r.id < s.nextId)
    ∧ (∀ r ∈ s.rows, (unmarshalHeaders r.headers).isSome = true)

/-! ### HTTP layer

A wire response is the status, header set and body the client observes.
`net/http` canonicalizes header keys on `Add`/`Del`
(`textproto.CanonicalMIMEHeaderKey`). -/

structure HttpResponse where
  status : Int
  headers : List (String × String)
  body : String
deriving DecidableEq, Repr

/-- An inbound request: method, URL path, and the management-envelope body as
decoded by `json.Decoder` (`none` when decoding fails or `data` is absent,
both of which `unmarshalAndVerify` rejects). -/
structure HttpRequest where
  method : String
  path : String
  body : Option Endpoint
deriving DecidableEq, Repr

def canonChars : Bool → List Char → List Char
  | _, [] => []
  | up, c :: cs =>
    if c = '-' then '-' :: canonChars true cs
    else (if up then c.toUpper else c.toLower) :: canonChars false cs

def canonicalMIMEHeaderKey (s : String) : String :=
  ⟨canonChars true s.data⟩

def headerDel (h : List (String × String)) (key : String) : List (String × String) :=
  h.filter (fun kv => kv.1 != canonicalMIMEHeaderKey key)

def headerAdd (h : List (String × String)) (key value : String) : List (String × String) :=
  h ++ [(canonicalMIMEHeaderKey key, value)]

/-- Header state installed by `withVndHeaderMiddleware` before any handler
runs. -/
def vndHeaders : List (String × String) :=
  [(("Content-Type"), ("application/vnd.api+json"))]

/-! ### Replaying a stored response (`serve` / `Response.Serve`) -/

/-- Go's `strings.TrimPrefix(s, "\"")`: drop one leading quote if present. -/
def trimLeadingQuote : List Char → List Char
  | [] => []
  | c :: cs => if c = '\"' then cs else c :: cs

/-- Go's `strings.TrimSuffix(s, "\"")`: drop one trailing quote if present. -/
def trimTrailingQuote (l : List Char) : List Char :=
  (trimLeadingQuote l.reverse).reverse

/-- The body transformation `serve` applies before writing to the wire. -/
def serveBody (b : String) : String :=
  ⟨trimTrailingQuote (trimLeadingQuote b.data)⟩

/-- The `serve` helper: deletes the default Content-Type set by the
middleware, strips the body's quotes, applies the stored headers, and writes
the stored status code and body. -/
def serve (h : List (String × String)) (r : Response) : HttpResponse :=
  let h1 := headerDel h ("Content-Type")
  let h2 := r.headers.foldl (fun acc kv => headerAdd acc kv.1 kv.2) h1
  { status := r.code, headers := h2, body := serveBody r.body }

/-! ### Error replies and JSON encoding (`server`) -/

/-- Model of `http.StatusText` for the codes this server emits. -/
def StatusText (code : Int) : String :=
  if code == 200 then ("OK")
  else if code == 201 then ("Created")
  else if code == 204 then ("No Content")
  else if code == 400 then ("Bad Request")
  else if code == 404 then ("Not Found")
  else if code == 409 then ("Conflict")
  else if code == 500 then ("Internal Server Error")
  else ("")

/-- The `errorMessage` format string
`\x7b"errors":[\x7b"code":"%s", "detail":"%s"\x7d]\x7d` applied to a status
text and a detail. -/
def errEnvelope (code detail : String) : String :=
  ("\x7b\"errors\":[\x7b\"code\":\"") ++ code ++ ("\", \"detail\":\"") ++ detail
    ++ ("\"\x7d]\x7d")

/-- The generic phrase substituted for any internal error detail. -/
def genericErrDetail : String :=
  ("Something went horribly wrong :(")

/-- `replyWithErr`: for a 500 the real message is logged server-side only and
the client-visible detail is replaced by the generic phrase. -/
def replyWithErr (h : List (String × String)) (code : Int) (err : String) : HttpResponse :=
  let err := if code == 500 then genericErrDetail else err
  { status := code, headers := h, body := errEnvelope (StatusText code) err }

def jsonStr (s : String) : String :=
  ("\"") ++ (⟨escapeChars s.data⟩ : String) ++ ("\"")

def encodeResponse (r : Response) : String :=
  ("\x7b\"code\":") ++ toString r.code ++ (",\"headers\":") ++ marshalHeaders r.headers
    ++ (",\"body\":") ++ jsonStr r.body ++ ("\x7d")

def encodeAttributes (a : Attributes) : String :=
  ("\x7b\"verb\":") ++ jsonStr a.verb ++ (",\"path\":") ++ jsonStr a.path
    ++ (",\"response\":") ++ encodeResponse a.response ++ ("\x7d")

def encodeEndpoint (e : Endpoint) : String :=
  ("\x7b\"type\":") ++ jsonStr e.type ++ (",\"id\":") ++ toString e.id
    ++ (",\"attributes\":") ++ encodeAttributes e.attributes ++ ("\x7d")

/-- `json.Encoder.Encode` of a `One` envelope (an encoder appends a newline;
that newline is added at the call sites). -/
def encodeOne (o : One) : String :=
  ("\x7b\"data\":") ++ encodeEndpoint o.data ++ ("\x7d")

def encodeMany (m : Many) : String :=
  ("\x7b\"data\":[") ++ (String.intercalate (",") (m.data.map encodeEndpoint)) ++ ("]\x7d")

/-- Go `error` text of a store result, as interpolated by `fmt.Sprintf`. -/
def errText : StoreErr → String
  | StoreErr.errNoRows => ("sql: no rows in result set")
  | StoreErr.other m => m

/-- `unmarshalAndVerify`: decode the envelope (failure → error) and run the
validator on `data`; the validator's message is abstracted to a fixed
string. -/
def unmarshalAndVerify (body : Option Endpoint) : Except String Endpoint :=
  match body with
  | none => Except.error ("Unable to decode request body")
  | some e =>
    if e.Verify then Except.ok e
    else Except.error ("Field validation failed")

/-! ### Handlers (`server`, revision with the conflict check — the version
whose messages `server_test.go` asserts) -/

def handlers.fetchEndpoints (s : Store) : HttpResponse × Store :=
  match s.FetchEndpoints with
  | Except.error err =>
    (replyWithErr vndHeaders 500 (("unable to fetch endpoints: ") ++ errText err), s)
  | Except.ok e =>
    ({ status := 200, headers := vndHeaders, body := encodeMany e ++ ("\n") }, s)

def handlers.createEndpoint (s : Store) (body : Option Endpoint) : HttpResponse × Store :=
  match unmarshalAndVerify body with
  | Except.error msg => (replyWithErr vndHeaders 400 msg, s)
  | Except.ok e =>
    match s.FindEndpoint e.attributes.verb e.attributes.path with
    | Except.error err =>
      (replyWithErr vndHeaders 500 (("error finding endpoint: ") ++ errText err), s)
    | Except.ok (some _) =>
      (replyWithErr vndHeaders 409 (("the requested endpoint `") ++ e.attributes.verb
        ++ (" ") ++ e.attributes.path ++ ("` already exists")), s)
    | Except.ok none =>
      match s.CreateEndpoint e with
      | (Except.error err, s') =>
        (replyWithErr vndHeaders 500 (("unable to create endpoint: ") ++ errText err), s')
      | (Except.ok one, s') =>
        ({ status := 201, headers := vndHeaders, body := encodeOne one ++ ("\n") }, s')

def handlers.updateEndpoint (s : Store) (id : String) (body : Option Endpoint) :
    HttpResponse × Store :=
  match unmarshalAndVerify body with
  | Except.error msg => (replyWithErr vndHeaders 400 msg, s)
  | Except.ok e =>
    match s.UpdateEndpoint id e with
    | (Except.error err, s') =>
      (replyWithErr vndHeaders 500 (("unable to update endpoint: ") ++ errText err), s')
    | (Except.ok none, s') =>
      (replyWithErr vndHeaders 404 (("Requested Endpoint with ID `") ++ id
        ++ ("` does not exist")), s')
    | (Except.ok (some one), s') =>
      ({ status := 201, headers := vndHeaders, body := encodeOne one ++ ("\n") }, s')

def handlers.deleteEndpoint (s : Store) (id : String) : HttpResponse × Store :=
  match s.DeleteEndpoint id with
  | (Except.error err, s') =>
    (replyWithErr vndHeaders 500 (("unable to delete endpoint: ") ++ errText err), s')
  | (Except.ok true, s') =>
    ({ status := 204, headers := vndHeaders, body := ("") }, s')
  | (Except.ok false, s') =>
    (replyWithErr vndHeaders 404 (("Requested Endpoint with ID `") ++ id
      ++ ("` does not exist")), s')

def handlers.all (s : Store) (method path : String) : HttpResponse × Store :=
  match s.FindEndpoint method path with
  | Except.error err =>
    (replyWithErr vndHeaders 500 (("error finding endpoint: ") ++ errText err), s)
  | Except.ok none =>
    (replyWithErr vndHeaders 404 (("Requested page `") ++ path ++ ("` does not exist")), s)
  | Except.ok (some r) => (serve vndHeaders r, s)

/-! ### Routing (`http.ServeMux` with the four management patterns and the
catch-all `/`) -/

inductive Route where
  | fetchAll
  | create
  | update (id : String)
  | delete (id : String)
  | dispatch
deriving DecidableEq, Repr

/-- The `\x7bid\x7d` segment of `/endpoints/\x7bid\x7d`: one non-empty
segment with no further slash. -/
def pathValueId (p : String) : Option String :=
  if hasPre (("/endpoints/").data) p.data then
    let rest := p.data.drop 11
    if rest ≠ [] ∧ ¬ rest.contains '/' then some ⟨rest⟩ else none
  else none

/-- `ServeMux` pattern selection (a `GET` pattern also matches `HEAD`);
anything not matching a management pattern falls through to `/`. -/
def route (method path : String) : Route :=
  if (method == ("GET") || method == ("HEAD")) && path == ("/endpoints") then Route.fetchAll
  else if method == ("POST") && path == ("/endpoints") then Route.create
  else if method == ("PATCH") then
    match pathValueId path with
    | some i => Route.update i
    | none => Route.dispatch
  else if method == ("DELETE") then
    match pathValueId path with
    | some i => Route.delete i
    | none => Route.dispatch
  else Route.dispatch

/-- One full request: middleware sets the vnd Content-Type, the mux picks the
handler, the handler runs against the registry. -/
def handle (s : Store) (req : HttpRequest) : HttpResponse × Store :=
  match route req.method req.path with
  | Route.fetchAll => handlers.fetchEndpoints s
  | Route.create => handlers.createEndpoint s req.body
  | Route.update id => handlers.updateEndpoint s id req.body
  | Route.delete id => handlers.deleteEndpoint s id
  | Route.dispatch => handlers.all s req.method req.path

/-! ### Concrete sample values used by the closed witnesses -/

def emptyStore : Store :=
  { rows := [], nextId := 1 }

def sampleResponse : Response :=
  { code := 200,
    headers := [(("Content-Type"), ("application/json"))],
    body := ("hi") }

def sampleEndpoint : Endpoint :=
  { type := ("endpoints"), id := 0,
    attributes :=
      { verb := ("GET"), path := ("/hello"), response := sampleResponse } }

/-- A well-formed stored row for the sample endpoint (headers blob as the
store writes it). -/
def sampleRow : Row :=
  { id := 1, type := ("endpoints"), verb := ("GET"), path := ("/hello"),
    code := 200,
    headers := ("\x7b\"Content-Type\":\"application/json\"\x7d"),
    body := ("\"hi\"") }

def sampleStore : Store :=
  { rows := [sampleRow], nextId := 2 }

/-- The response `FindEndpoint` reconstitutes from `sampleRow`. -/
def sampleResponseStored : Response :=
  { code := 200,
    headers := [(("Content-Type"), ("application/json"))],
    body := ("\"hi\"") }

/-- An input rejected by the verb validator. -/
def badVerbEndpoint : Endpoint :=
  { type := ("endpoints"), id := 0,
    attributes :=
      { verb := ("CUAK"), path := ("/hello"), response := sampleResponse } }

/-- A store whose single row has a corrupted headers blob: reading it makes
the storage layer fail with a non-not-found error. -/
def corruptStore : Store :=
  { rows := [{ id := 1, type := ("endpoints"), verb := ("GET"), path := ("/bad"),
               code := 200, headers := ("oops"), body := ("") }],
    nextId := 2 }

/-! ### Supporting lemmas -/

theorem trimLeadingQuote_spec (l : List Char) :
    trimLeadingQuote l = if l.head? = some '\"' then l.tail else l := by
  cases l with
  | nil => rfl
  | cons c cs => simp [trimLeadingQuote]

theorem trimTrailingQuote_spec (l : List Char) :
    trimTrailingQuote l = if l.getLast? = some '\"' then l.dropLast else l := by
  induction l using List.reverseRecOn with
  | nil => rfl
  | append_singleton xs x _ =>
    simp only [trimTrailingQuote, List.reverse_append, List.reverse_cons,
      List.reverse_nil, List.nil_append, List.cons_append, trimLeadingQuote,
      List.getLast?_concat, List.dropLast_concat]
    by_cases hx : x = '\"'
    · simp [hx]
    · simp [hx]

theorem find?_append_none {α : Type} (l₁ l₂ : List α) (p : α → Bool)
    (h : l₁.find? p = none) : (l₁ ++ l₂).find? p = l₂.find? p := by
  induction l₁ with
  | nil => rfl
  | cons a l ih =>
    by_cases hpa : p a = true
    · rw [List.find?_cons_of_pos _ hpa] at h
      simp at h
    · rw [List.find?_cons_of_neg _ hpa] at h
      rw [List.cons_append, List.find?_cons_of_neg _ hpa]
      exact ih h

/-! ### Claims -/

/-- C3 (counterexample): the claim says a stored body with a double-quote on
only one end is served unchanged; the code trims the leading and the trailing
quote independently, so the stored body `"x` is served as `x`, not
unchanged. -/
theorem C3_counterexample :
    (serve vndHeaders { code := 200, headers := [], body := ("\"x") }).body ≠ ("\"x")
      ∧ (serve vndHeaders { code := 200, headers := [], body := ("\"x") }).body = ("x") := by
  exact ⟨by decide, rfl⟩

/-- C3 (amended): the body written to the wire is the stored body with one
leading double-quote removed if present and, independently, one trailing
double-quote removed if present afterwards.  In particular both are removed
when the body begins and ends with a quote (length at least two), and a body
with a quote on only one end loses that quote rather than being served
unchanged. -/
theorem C3_serve_strips_quotes (b : String) :
    (b.data.head? = some '\"' → b.data.getLast? = some '\"' → 2 ≤ b.data.length →
        serveBody b = ⟨b.data.tail.dropLast⟩)
    ∧ (b.data.head? = some '\"' → ¬ b.data.getLast? = some '\"' →
        serveBody b = ⟨b.data.tail⟩)
    ∧ (¬ b.data.head? = some '\"' → b.data.getLast? = some '\"' →
        serveBody b = ⟨b.data.dropLast⟩)
    ∧ (¬ b.data.head? = some '\"' → ¬ b.data.getLast? = some '\"' →
        serveBody b = b) := by
  refine ⟨?_, ?_, ?_, ?_⟩
  · intro h1 h2 h3
    unfold serveBody
    rw [trimLeadingQuote_spec, if_pos h1, trimTrailingQuote_spec]
    cases l : b.data with
    | nil => simp [l] at h1
    | cons c cs =>
      cases cs with
      | nil => rw [l] at h3; simp at h3
      | cons d ds =>
        rw [l] at h2
        rw [List.getLast?_cons_cons] at h2
        simp [l, h2]
  · intro h1 h2
    unfold serveBody
    rw [trimLeadingQuote_spec, if_pos h1, trimTrailingQuote_spec]
    cases l : b.data with
    | nil => simp [l] at h1
    | cons c cs =>
      cases cs with
      | nil => simp
      | cons d ds =>
        rw [l] at h2
        rw [List.getLast?_cons_cons] at h2
        simp [h2]
  · intro h1 h2
    unfold serveBody
    rw [trimLeadingQuote_spec, if_neg h1, trimTrailingQuote_spec, if_pos h2]
  · intro h1 h2
    unfold serveBody
    rw [trimLeadingQuote_spec, if_neg h1, trimTrailingQuote_spec, if_neg h2]

/-- C3 (witness for the amended claim): a JSON-quoted stored body loses both
quotes on the wire. -/
theorem C3_witness : serveBody ("\"hi\"") = ("hi") :=
  (C3_serve_strips_quotes ("\"hi\"")).1 (by decide) (by decide) (by decide)

/-- C1: creating a valid endpoint whose (verb, path) pair is not yet
registered and then looking it up with `FindEndpoint` returns exactly the
created response: same code, same headers mapping (surviving the
marshal/unmarshal round trip of the headers text blob), same body. -/
theorem C1_create_then_find (s : Store) (e : Endpoint)
    (_hv : e.Verify = true)
    (hfresh : ∀ r ∈ s.rows, ¬(r.verb = e.attributes.verb ∧ r.path = e.attributes.path)) :
    ((s.CreateEndpoint e).2).FindEndpoint e.attributes.verb e.attributes.path
      = Except.ok (some e.attributes.response) := by
  have hrt := unmarshalHeaders_marshalHeaders e.attributes.response.headers
  have hsnd : (s.CreateEndpoint e).2 =
      { rows := s.rows ++
          [{ id := s.nextId, type := e.type, verb := e.attributes.verb,
             path := e.attributes.path, code := e.attributes.response.code,
             headers := marshalHeaders e.attributes.response.headers,
             body := e.attributes.response.body }],
        nextId := s.nextId + 1 } := by
    simp only [Store.CreateEndpoint, rowScan, hrt]
  rw [hsnd]
  unfold Store.FindEndpoint
  have hnone : s.rows.find? (fun r => r.verb == e.attributes.verb
      && r.path == e.attributes.path) = none := by
    refine List.find?_eq_none.mpr (fun r hr => ?_)
    simp only [Bool.and_eq_true, beq_iff_eq]
    exact fun h => hfresh r hr h
  rw [find?_append_none _ _ _ hnone]
  simp only [List.find?_cons, beq_self_eq_true, Bool.and_self, cond_true, hrt]

/-- C1 (witness): a concrete create-then-find round trip on the empty
registry. -/
theorem C1_witness :
    ((Store.CreateEndpoint emptyStore sampleEndpoint).2).FindEndpoint ("GET") ("/hello")
      = Except.ok (some sampleEndpoint.attributes.response) :=
  C1_create_then_find emptyStore sampleEndpoint (by decide) (by simp [emptyStore])

/-- C2: a `POST /endpoints` request carrying a valid endpoint input whose
(verb, path) pair equals that of an already-registered endpoint fails with a
409 conflict and is not persisted: the registry state after the request
equals the state before. -/
theorem C2_duplicate_create_conflicts (s : Store) (e : Endpoint) (r : Row)
    (hwf : s.WF) (hv : e.Verify = true) (hr : r ∈ s.rows)
    (hverb : r.verb = e.attributes.verb) (hpath : r.path = e.attributes.path) :
    (handle s ⟨("POST"), ("/endpoints"), some e⟩).1.status = 409
      ∧ (handle s ⟨("POST"), ("/endpoints"), some e⟩).2 = s := by
  have hroute : route ("POST") ("/endpoints") = Route.create := rfl
  have hsome : (s.rows.find? (fun x => x.verb == e.attributes.verb
      && x.path == e.attributes.path)).isSome := by
    refine List.find?_isSome.mpr ⟨r, hr, ?_⟩
    simp [hverb, hpath]
  obtain ⟨r', hfind⟩ := Option.isSome_iff_exists.mp hsome
  have hr'mem : r' ∈ s.rows := List.mem_of_find?_eq_some hfind
  obtain ⟨hs, hu⟩ := Option.isSome_iff_exists.mp (hwf.2.2 r' hr'mem)
  have hfe : s.FindEndpoint e.attributes.verb e.attributes.path
      = Except.ok (some { code := r'.code, headers := hs, body := r'.body }) := by
    unfold Store.FindEndpoint
    rw [hfind]
    simp [hu]
  constructor
  · simp [handle, hroute, handlers.createEndpoint, unmarshalAndVerify, hv, hfe, replyWithErr]
  · simp [handle, hroute, handlers.createEndpoint, unmarshalAndVerify, hv, hfe]

/-- C2 (witness): posting the sample endpoint again on a store already
holding its (verb, path) yields 409 and an unchanged store. -/
theorem C2_witness :
    (handle sampleStore ⟨("POST"), ("/endpoints"), some sampleEndpoint⟩).1.status = 409
      ∧ (handle sampleStore ⟨("POST"), ("/endpoints"), some sampleEndpoint⟩).2 = sampleStore :=
  C2_duplicate_create_conflicts sampleStore sampleEndpoint sampleRow
    (by refine ⟨?_, ?_, ?_⟩ <;> decide) (by decide) (by decide) rfl rfl

/-- C4 (code-bug evidence): `Store.UpdateEndpoint` on an id matching no row
returns the error `sql.ErrNoRows` rather than a non-error not-found signal —
the store's own tests assert `NoError` and a nil result here — though it does
leave the registry unchanged; through the current handler the client sees a
500, not a 404. -/
theorem C4_update_missing_id_returns_error :
    Store.UpdateEndpoint sampleStore ("12") sampleEndpoint
        = (Except.error StoreErr.errNoRows, sampleStore)
      ∧ (handlers.updateEndpoint sampleStore ("12") (some sampleEndpoint)).1.status = 500 :=
  ⟨rfl, rfl⟩

/-- C5: a request matching none of the four management routes is dispatched
against the registry: a found mock is replayed with its stored status code,
its stored headers applied after the default vnd Content-Type is removed
(note the empty starting header set), and its quote-stripped body; a miss
yields the 404 error envelope naming the requested path. -/
theorem C5_dispatch_replay_or_404 (s : Store) (m p : String) (b : Option Endpoint)
    (hroute : route m p = Route.dispatch) :
    (∀ r : Response, s.FindEndpoint m p = Except.ok (some r) →
        (handle s ⟨m, p, b⟩).1
          = { status := r.code,
              headers := r.headers.foldl (fun acc kv => headerAdd acc kv.1 kv.2) [],
              body := serveBody r.body })
      ∧ (s.FindEndpoint m p = Except.ok none →
        (handle s ⟨m, p, b⟩).1
          = { status := 404, headers := vndHeaders,
              body := errEnvelope (("Not Found"))
                (("Requested page `") ++ p ++ ("` does not exist")) }) := by
  constructor
  · intro r hfind
    have hdel : headerDel vndHeaders ("Content-Type") = [] := rfl
    simp [handle, hroute, handlers.all, hfind, serve, hdel]
  · intro hfind
    simp [handle, hroute, handlers.all, hfind, replyWithErr, StatusText]

/-- C5 (witness): dispatching a request at the sample store replays the
stored mock: code 200, only the mock's own Content-Type, body unquoted. -/
theorem C5_witness :
    (handle sampleStore ⟨("GET"), ("/hello"), none⟩).1
      = { status := 200, headers := [(("Content-Type"), ("application/json"))],
          body := ("hi") } :=
  (C5_dispatch_replay_or_404 sampleStore ("GET") ("/hello") none rfl).1
    sampleResponseStored rfl

/-- C6: validation of an endpoint input succeeds iff its type is the literal
`endpoints`, its verb is one of the nine allowed tokens, its path is a
non-empty valid URI path and its response code lies in [100, 599]; an input
failing validation is answered with a 400 and is neither created nor
updated. -/
theorem C6_validation (e : Endpoint) :
    (e.Verify = true ↔
      (e.type = ("endpoints")
        ∧ e.attributes.verb ∈ [("GET"), ("HEAD"), ("OPTIONS"), ("TRACE"), ("PUT"),
            ("DELETE"), ("POST"), ("PATCH"), ("CONNECT")]
        ∧ e.attributes.path ≠ ("") ∧ isURI e.attributes.path = true
        ∧ 100 ≤ e.attributes.response.code ∧ e.attributes.response.code ≤ 599))
    ∧ (e.Verify = false → ∀ (s : Store) (id : String),
        ((handlers.createEndpoint s (some e)).1.status = 400
          ∧ (handlers.createEndpoint s (some e)).2 = s)
        ∧ ((handlers.updateEndpoint s id (some e)).1.status = 400
          ∧ (handlers.updateEndpoint s id (some e)).2 = s)) := by
  constructor
  · constructor
    · intro h
      simp only [Endpoint.Verify, Bool.and_eq_true, beq_iff_eq, bne_iff_ne,
        decide_eq_true_eq] at h
      obtain ⟨⟨⟨h1, h2⟩, h3, h4⟩, ⟨_, h5⟩, h6⟩ := h
      refine ⟨h1, ?_, h3, h4, h5, h6⟩
      simpa [validVerb] using h2
    · rintro ⟨h1, h2, h3, h4, h5, h6⟩
      simp only [Endpoint.Verify, Bool.and_eq_true, beq_iff_eq, bne_iff_ne,
        decide_eq_true_eq]
      refine ⟨⟨⟨h1, ?_⟩, h3, h4⟩, ⟨by omega, h5⟩, h6⟩
      simpa [validVerb] using h2
  · intro hfalse s id
    refine ⟨⟨?_, ?_⟩, ?_, ?_⟩ <;>
      simp [handlers.createEndpoint, handlers.updateEndpoint, unmarshalAndVerify,
        hfalse, replyWithErr]

/-- C6 (witness): an input with the verb `CUAK` fails validation and a POST
carrying it is answered with 400 without touching the registry. -/
theorem C6_witness :
    Endpoint.Verify badVerbEndpoint = false
      ∧ ((handlers.createEndpoint emptyStore (some badVerbEndpoint)).1.status = 400
        ∧ (handlers.createEndpoint emptyStore (some badVerbEndpoint)).2 = emptyStore) :=
  ⟨by decide, ((C6_validation badVerbEndpoint).2 (by decide) emptyStore ("1")).1⟩

/-! ### Lemmas about fetching and deleting on well-formed stores -/

theorem scanRows_ok (l : List Row)
    (h : ∀ r ∈ l, (unmarshalHeaders r.headers).isSome = true) :
    scanRows l = Except.ok (l.map rowEndpoint) := by
  induction l with
  | nil => rfl
  | cons r rs ih =>
    obtain ⟨hs, hu⟩ := Option.isSome_iff_exists.mp (h r (List.mem_cons_self r rs))
    have ih' := ih (fun x hx => h x (List.mem_cons_of_mem r hx))
    simp [scanRows, rowScan, hu, ih', rowEndpoint]

theorem fetch_of_wf (s : Store) (h : s.WF) :
    s.FetchEndpoints = Except.ok ({ data := s.rows.map rowEndpoint }) := by
  unfold Store.FetchEndpoints
  have hsorted : List.Sorted (fun a b : Row => a.id ≤ b.id) s.rows :=
    h.1.imp (fun hab => le_of_lt hab)
  rw [List.Sorted.insertionSort_eq hsorted, scanRows_ok s.rows h.2.2]

theorem wf_deleteEndpoint (s : Store) (id : String) (h : s.WF) :
    ((s.DeleteEndpoint id).2).WF := by
  cases hn : strToNat? id with
  | none => simpa [Store.DeleteEndpoint, hn] using h
  | some n =>
    simp only [Store.DeleteEndpoint, hn]
    exact ⟨List.Pairwise.sublist (List.filter_sublist _) h.1,
      fun r hrm => h.2.1 r (List.mem_of_mem_filter hrm),
      fun r hrm => h.2.2 r (List.mem_of_mem_filter hrm)⟩

theorem handlers_all_snd (s : Store) (m p : String) : (handlers.all s m p).2 = s := by
  unfold handlers.all
  cases s.FindEndpoint m p with
  | error e => rfl
  | ok o =>
    cases o with
    | none => rfl
    | some r => rfl

/-- Extracts the message of a non-not-found storage error from a store
result. -/
def errOther? {α : Type} : Except StoreErr α → Option String
  | Except.error (StoreErr.other m) => some m
  | _ => none

/-- The non-not-found storage error (if any) that the store layer produces
while `handle` processes the request, replaying the handler's control flow up
to its store calls. -/
def storeErrorOf (s : Store) (req : HttpRequest) : Option String :=
  match route req.method req.path with
  | Route.fetchAll => errOther? s.FetchEndpoints
  | Route.create =>
    match unmarshalAndVerify req.body with
    | Except.error _ => none
    | Except.ok e =>
      match s.FindEndpoint e.attributes.verb e.attributes.path with
      | Except.error err => errOther? (Except.error err : Except StoreErr (Option Response))
      | Except.ok (some _) => none
      | Except.ok none => errOther? (s.CreateEndpoint e).1
  | Route.update id =>
    match unmarshalAndVerify req.body with
    | Except.error _ => none
    | Except.ok e => errOther? (s.UpdateEndpoint id e).1
  | Route.delete id => errOther? (s.DeleteEndpoint id).1
  | Route.dispatch => errOther? (s.FindEndpoint req.method req.path)

/-- C7: whenever the store layer fails with any error other than the domain
not-found sentinel while a request is handled, the client-visible response is
the constant 500 reply: the fixed generic detail, never the real error text —
so two runs differing only in the storage error's message produce identical
client responses. -/
theorem C7_storage_errors_redacted (s : Store) (req : HttpRequest) (msg : String)
    (h : storeErrorOf s req = some msg) :
    (handle s req).1
      = { status := 500, headers := vndHeaders,
          body := errEnvelope (("Internal Server Error")) genericErrDetail } := by
  unfold storeErrorOf at h
  unfold handle
  cases hR : route req.method req.path
  case fetchAll =>
    cases hf : s.FetchEndpoints with
    | error err =>
      cases err with
      | errNoRows => simp [hR, hf, errOther?] at h
      | other m =>
        simp only [handlers.fetchEndpoints, hf]
        rfl
    | ok mm => simp [hR, hf, errOther?] at h
  case create =>
    cases hu : unmarshalAndVerify req.body with
    | error m => simp [hR, hu] at h
    | ok e =>
      cases hfind : s.FindEndpoint e.attributes.verb e.attributes.path with
      | error err =>
        cases err with
        | errNoRows => simp [hR, hu, hfind, errOther?] at h
        | other m =>
          simp only [handlers.createEndpoint, hu, hfind]
          rfl
      | ok o =>
        cases o with
        | some r => simp [hR, hu, hfind, errOther?] at h
        | none =>
          rcases hc : s.CreateEndpoint e with ⟨res, s'⟩
          cases res with
          | error err =>
            cases err with
            | errNoRows => simp [hR, hu, hfind, hc, errOther?] at h
            | other m =>
              simp only [handlers.createEndpoint, hu, hfind, hc]
              rfl
          | ok one => simp [hR, hu, hfind, hc, errOther?] at h
  case update id =>
    cases hu : unmarshalAndVerify req.body with
    | error m => simp [hR, hu] at h
    | ok e =>
      rcases hup : s.UpdateEndpoint id e with ⟨res, s'⟩
      cases res with
      | error err =>
        cases err with
        | errNoRows => simp [hR, hu, hup, errOther?] at h
        | other m =>
          simp only [handlers.updateEndpoint, hu, hup]
          rfl
      | ok o => simp [hR, hu, hup, errOther?] at h
  case delete id =>
    rcases hd : s.DeleteEndpoint id with ⟨res, s'⟩
    cases res with
    | error err =>
      cases err with
      | errNoRows => simp [hR, hd, errOther?] at h
      | other m =>
        simp only [handlers.deleteEndpoint, hd]
        rfl
    | ok b => simp [hR, hd, errOther?] at h
  case dispatch =>
    cases hfind : s.FindEndpoint req.method req.path with
    | error err =>
      cases err with
      | errNoRows => simp [hR, hfind, errOther?] at h
      | other m =>
        simp only [handlers.all, hfind]
        rfl
    | ok o => cases o <;> simp [hR, hfind, errOther?] at h

/-- C7 (witness): a store holding a corrupted headers blob makes the lookup
fail; the client sees only the constant redacted 500. -/
theorem C7_witness :
    (handle corruptStore ⟨("GET"), ("/bad"), none⟩).1
      = { status := 500, headers := vndHeaders,
          body := errEnvelope (("Internal Server Error")) genericErrDetail } :=
  C7_storage_errors_redacted corruptStore ⟨("GET"), ("/bad"), none⟩
    (("unmarshal headers: oops")) rfl

/-- C8: `Delete(id)` returns `true` exactly when some row carries that id
(and never an error); afterwards no remaining row — and, on a well-formed
store, no endpoint of `FetchAll` — carries the id, while every other row
survives. -/
theorem C8_delete_semantics (s : Store) (id : String) :
    ((s.DeleteEndpoint id).1 = Except.ok true ↔ ∃ r ∈ s.rows, strToNat? id = some r.id)
    ∧ ((s.DeleteEndpoint id).1 = Except.ok true ∨ (s.DeleteEndpoint id).1 = Except.ok false)
    ∧ (∀ r ∈ ((s.DeleteEndpoint id).2).rows, ¬ strToNat? id = some r.id)
    ∧ (∀ r ∈ s.rows, ¬ strToNat? id = some r.id → r ∈ ((s.DeleteEndpoint id).2).rows)
    ∧ (s.WF → ∃ l, ((s.DeleteEndpoint id).2).FetchEndpoints = Except.ok ({ data := l })
        ∧ ∀ e ∈ l, ¬ strToNat? id = some e.id) := by
  cases hn : strToNat? id with
  | none =>
    refine ⟨?_, ?_, ?_, ?_, ?_⟩
    · simp only [Store.DeleteEndpoint, hn]
      constructor
      · intro hfalse; simp at hfalse
      · rintro ⟨r, _, hid⟩; exact Option.noConfusion hid
    · simp [Store.DeleteEndpoint, hn]
    · intro r _ hid; exact Option.noConfusion hid
    · intro r hr _; simpa [Store.DeleteEndpoint, hn] using hr
    · intro hwf
      refine ⟨((s.DeleteEndpoint id).2).rows.map rowEndpoint,
        fetch_of_wf _ (wf_deleteEndpoint s id hwf), ?_⟩
      intro e _ hid
      exact Option.noConfusion hid
  | some n =>
    have hD : s.DeleteEndpoint id
        = (Except.ok (s.rows.any (fun r => r.id == n)),
           { s with rows := s.rows.filter (fun r => r.id != n) }) := by
      simp [Store.DeleteEndpoint, hn]
    refine ⟨?_, ?_, ?_, ?_, ?_⟩
    · rw [hD]
      simp only [Except.ok.injEq, Option.some_inj]
      constructor
      · intro hany
        obtain ⟨r, hr, hbeq⟩ := List.any_eq_true.mp hany
        exact ⟨r, hr, (beq_iff_eq.mp hbeq).symm⟩
      · rintro ⟨r, hr, hid⟩
        exact List.any_eq_true.mpr ⟨r, hr, beq_iff_eq.mpr hid.symm⟩
    · rw [hD]
      cases hb : s.rows.any (fun r => r.id == n)
      · right; simp [hb]
      · left; simp [hb]
    · rw [hD]
      intro r hrm heq
      replace hrm : r ∈ s.rows.filter (fun r => r.id != n) := hrm
      exact absurd (Option.some_inj.mp heq).symm (bne_iff_ne.mp (List.mem_filter.mp hrm).2)
    · rw [hD]
      intro r hr hne
      refine List.mem_filter.mpr ⟨hr, bne_iff_ne.mpr ?_⟩
      intro hid
      exact hne (by rw [hid])
    · intro hwf
      refine ⟨((s.DeleteEndpoint id).2).rows.map rowEndpoint,
        fetch_of_wf _ (wf_deleteEndpoint s id hwf), ?_⟩
      intro e hmem heq
      obtain ⟨r, hrm, hre⟩ := List.mem_map.mp hmem
      rw [hD] at hrm
      replace hrm : r ∈ s.rows.filter (fun r => r.id != n) := hrm
      have hrne : r.id ≠ n := bne_iff_ne.mp (List.mem_filter.mp hrm).2
      have hne : n = e.id := Option.some_inj.mp heq
      rw [← hre] at hne
      exact hrne hne.symm

/-- C8 (witness): deleting the sample row by its id returns true. -/
theorem C8_witness :
    (Store.DeleteEndpoint sampleStore ("1")).1 = Except.ok true :=
  (C8_delete_semantics sampleStore ("1")).1.mpr ⟨sampleRow, by decide, by decide⟩

/-- C9: on a well-formed registry `FetchAll` succeeds with every stored
endpoint in ascending-id order, and on the empty registry the management
route answers 200 with the empty `data` envelope rather than an error. -/
theorem C9_fetch_ordered (s : Store) :
    (s.WF → s.FetchEndpoints = Except.ok ({ data := s.rows.map rowEndpoint })
      ∧ List.Pairwise (fun a b : Endpoint => a.id ≤ b.id) (s.rows.map rowEndpoint))
    ∧ handle emptyStore ⟨("GET"), ("/endpoints"), none⟩
        = ({ status := 200, headers := vndHeaders, body := ("\x7b\"data\":[]\x7d\n") },
           emptyStore) := by
  constructor
  · intro h
    refine ⟨fetch_of_wf s h, ?_⟩
    exact List.pairwise_map.mpr (h.1.imp (fun hab => le_of_lt hab))
  · rfl

/-- C9 (witness): fetching the sample store returns its single endpoint. -/
theorem C9_witness :
    sampleStore.FetchEndpoints = Except.ok ({ data := sampleStore.rows.map rowEndpoint }) :=
  ((C9_fetch_ordered sampleStore).1 (by refine ⟨?_, ?_, ?_⟩ <;> decide)).1

/-- C10: replaying mocks never mutates the registry: any sequence of
dispatched (non-management) requests leaves the store state identical, so
`FindEndpoint` and `FetchAll` afterwards return exactly what they returned
before — including bodies with their surrounding quotes, which are stripped
only on the per-request copy written to the wire. -/
theorem C10_dispatch_preserves_registry (s : Store) (reqs : List HttpRequest)
    (h : ∀ q ∈ reqs, route q.method q.path = Route.dispatch) :
    reqs.foldl (fun st q => (handle st q).2) s = s
    ∧ ∀ v p : String,
        (reqs.foldl (fun st q => (handle st q).2) s).FindEndpoint v p = s.FindEndpoint v p
        ∧ (reqs.foldl (fun st q => (handle st q).2) s).FetchEndpoints
            = s.FetchEndpoints := by
  have hmain : reqs.foldl (fun st q => (handle st q).2) s = s := by
    induction reqs with
    | nil => rfl
    | cons q qs ih =>
      rw [List.foldl_cons]
      have hq : (handle s q).2 = s := by
        have hr := h q (List.mem_cons_self q qs)
        simp [handle, hr, handlers_all_snd]
      rw [hq]
      exact ih (fun x hx => h x (List.mem_cons_of_mem q hx))
  exact ⟨hmain, fun v p => ⟨by rw [hmain], by rw [hmain]⟩⟩

/-- C10 (witness): dispatching the sample mock twice leaves the store
unchanged. -/
theorem C10_witness :
    (([⟨("GET"), ("/hello"), none⟩, ⟨("GET"), ("/hello"), none⟩] : List HttpRequest).foldl
        (fun st q => (handle st q).2) sampleStore) = sampleStore :=
  (C10_dispatch_preserves_registry sampleStore _ (by decide)).1

end Echo
